import Mathlib

/-!
Verification development for the `browser_stream` repository.

The Python sources are shallowly embedded: pure functions become Lean
functions, fallible code returns `Except`, and the effectful collaborators
(ffmpeg probing, filesystem existence checks, interactive prompts) are passed
in as explicit parameters.  File paths are modelled by their final name
component (a `String`), which is the only part the embedded functions
inspect.
-/

namespace BrowserStream

/-! ## Python string and pathlib primitives -/

/-- Python `str.lower` (ASCII model). -/
def pyLower (l : List Char) : List Char := l.map Char.toLower

/-- `true` when no character of `l` is a dot. -/
def noDot (l : List Char) : Bool := l.all (fun c => decide (c ≠ '.'))

/-- Split a name at its last dot: `some (before, after)`, or `none` when the
name has no dot.  The `after` component never contains a dot. -/
def splitLastDot : List Char → Option (List Char × List Char)
  | [] => none
  | c :: rest =>
    match splitLastDot rest with
    | some (a, b) => some (c :: a, b)
    | none => if c = '.' then some ([], rest) else none

/-- `pathlib.PurePath.stem`: the name without its last suffix; a name whose
only dot is leading or trailing has no suffix and is returned whole. -/
def pyStem (l : List Char) : List Char :=
  match splitLastDot l with
  | some (a, b) => if a ≠ [] ∧ b ≠ [] then a else l
  | none => l

/-- `FS.get_extension(path)`, i.e. `path.suffixes[-1].lstrip(".")`; `none`
models the `IndexError` raised when the name has no suffix at all. -/
def pyExtensionTok (l : List Char) : Option (List Char) :=
  match splitLastDot l with
  | some (a, b) => if a ≠ [] ∧ b ≠ [] then some b else none
  | none => none

/-- The literal pattern `"." + suffix` that `utils.get_file_path` removes
from the stem. -/
def dotPat (suffix : List Char) : List Char := '.' :: suffix

/-- Python `str.replace("." + suffix, "")`: remove every non-overlapping
occurrence, scanning the original string left to right.  The fuel argument
bounds the recursion; the wrapper passes the string length, which always
suffices because every step consumes at least one character. -/
def removeDotPatAux (suffix : List Char) : Nat → List Char → List Char
  | 0, _ => []
  | _ + 1, [] => []
  | n + 1, c :: rest =>
    if (dotPat suffix).isPrefixOf (c :: rest) then
      removeDotPatAux suffix n ((c :: rest).drop (dotPat suffix).length)
    else c :: removeDotPatAux suffix n rest

def removeDotPat (suffix l : List Char) : List Char :=
  removeDotPatAux suffix l.length l

/-- Python substring test `pat in s`. -/
def containsTok (pat : List Char) : List Char → Bool
  | [] => pat.isEmpty
  | c :: rest => pat.isPrefixOf (c :: rest) || containsTok pat rest

/-! ## PathNamer: `utils.get_file_path` -/

/-- The `name` variable computed inside `utils.get_file_path`: strip
`"." + suffix` markers from the stem, then drop a trailing
language-code-shaped (at most 3 characters) dot-segment. -/
def cacheBaseName (path : String) (suffix : String) : List Char :=
  let t := removeDotPat suffix.data (pyStem path.data)
  match splitLastDot t with
  | none => t
  | some (a, b) => if b.length ≤ 3 then a else a ++ '.' :: b

/-- `utils.get_file_path(path, codec, language, suffix)`.  The model keeps
only the final name component of the returned path, which is what
`path.with_name` replaces. -/
def get_file_path (path codec language suffix : String) : String :=
  let lang2 := (pyLower language.data).take 2
  String.mk (cacheBaseName path suffix ++ '.' :: lang2 ++ '.' :: suffix.data ++ '.' :: codec.data)

/-! Supporting lemmas about the string primitives. -/

theorem splitLastDot_of_noDot (y : List Char) (h : noDot y = true) :
    splitLastDot y = none := by
  induction y with
  | nil => rfl
  | cons c rest ih =>
    simp only [noDot, List.all_cons, Bool.and_eq_true, decide_eq_true_eq] at h
    have hrest : noDot rest = true := h.2
    simp [splitLastDot, ih hrest, h.1]

theorem splitLastDot_append (x y : List Char) (h : noDot y = true) :
    splitLastDot (x ++ '.' :: y) = some (x, y) := by
  induction x with
  | nil => simp [splitLastDot, splitLastDot_of_noDot y h]
  | cons c x ih => simp [splitLastDot, ih]

theorem isPrefixOf_self (l : List Char) : l.isPrefixOf l = true := by
  induction l with
  | nil => rfl
  | cons c rest ih => simp [List.isPrefixOf, ih]

theorem removeDotPatAux_nil (suffix : List Char) (n : Nat) :
    removeDotPatAux suffix n [] = [] := by
  cases n <;> rfl

/-- Decidable side condition: no occurrence of `"." + suffix` starts strictly
inside `l` when `l` is followed by one final `"." + suffix` marker. -/
def cleanRun (suffix : List Char) : List Char → Bool
  | [] => true
  | c :: rest =>
    !((dotPat suffix).isPrefixOf ((c :: rest) ++ dotPat suffix)) && cleanRun suffix rest

theorem removeDotPatAux_cons (suffix : List Char) (n : Nat) (c : Char) (rest : List Char) :
    removeDotPatAux suffix (n + 1) (c :: rest) =
      if (dotPat suffix).isPrefixOf (c :: rest) then
        removeDotPatAux suffix n ((c :: rest).drop (dotPat suffix).length)
      else c :: removeDotPatAux suffix n rest := rfl

theorem removeDotPatAux_clean (suffix : List Char) :
    ∀ (l : List Char) (n : Nat), (l ++ dotPat suffix).length ≤ n →
      cleanRun suffix l = true → removeDotPatAux suffix n (l ++ dotPat suffix) = l := by
  intro l
  induction l with
  | nil =>
    intro n hn _
    match n, hn with
    | m + 1, _ =>
      simp only [List.nil_append]
      show removeDotPatAux suffix (m + 1) ('.' :: suffix) = []
      rw [removeDotPatAux_cons]
      have hpre : (dotPat suffix).isPrefixOf ('.' :: suffix) = true := isPrefixOf_self (dotPat suffix)
      rw [hpre]
      simp only [if_true]
      have hdrop : ('.' :: suffix).drop (dotPat suffix).length = [] := by
        simp [dotPat, List.drop_length]
      rw [hdrop, removeDotPatAux_nil]
  | cons c rest ih =>
    intro n hn hclean
    simp only [cleanRun, Bool.and_eq_true, Bool.not_eq_true'] at hclean
    match n, hn with
    | m + 1, hn =>
      have hlen : (rest ++ dotPat suffix).length ≤ m := by
        simp only [List.length_append, List.length_cons] at hn ⊢
        omega
      have hcons : (c :: rest) ++ dotPat suffix = c :: (rest ++ dotPat suffix) := by simp
      rw [hcons, removeDotPatAux_cons, ← hcons, hclean.1]
      simp only [Bool.false_eq_true, if_false]
      exact congrArg (c :: ·) (ih m hlen hclean.2)

theorem removeDotPat_clean (suffix l : List Char) (h : cleanRun suffix l = true) :
    removeDotPat suffix (l ++ dotPat suffix) = l :=
  removeDotPatAux_clean suffix l (l ++ dotPat suffix).length (Nat.le_refl _) h

/-- C4 counterexample input: removing the `".stream"` marker from the stem
`"a.str.streameam"` creates a fresh `".stream"` token, which the second
application of `get_file_path` then strips again. -/
theorem get_file_path_not_idempotent :
    get_file_path (get_file_path "a.str.streameam.mkv" "mp4" "eng" "stream") "mp4" "eng" "stream" ≠
      get_file_path "a.str.streameam.mkv" "mp4" "eng" "stream" := by decide

/-- C4: cache-path naming is idempotent, under the side conditions the
counterexample above forces: the codec is nonempty and dot-free, the lowered
two-character language tag is dot-free, and no `".stream"` occurrence starts
strictly inside the computed cache stem `name.la`.  The second conjunct
records that the language component of the result is always the lowercase
first two characters of the requested language. -/
theorem get_file_path_idempotent_of_clean (p codec lang : String)
    (hcodec : codec.data ≠ []) (hcodecDot : noDot codec.data = true)
    (hlang : ((pyLower lang.data).take 2).length = 2)
    (hlangDot : noDot ((pyLower lang.data).take 2) = true)
    (hclean : cleanRun "stream".data
        (cacheBaseName p "stream" ++ '.' :: (pyLower lang.data).take 2) = true) :
    get_file_path (get_file_path p codec lang "stream") codec lang "stream" =
      get_file_path p codec lang "stream"
    ∧ ∃ base : List Char,
        (get_file_path p codec lang "stream").data =
          base ++ '.' :: (pyLower lang.data).take 2 ++ '.' :: "stream".data ++ '.' :: codec.data := by
  refine ⟨?_, ⟨cacheBaseName p "stream", rfl⟩⟩
  set la := (pyLower lang.data).take 2 with hla
  set b := cacheBaseName p "stream" with hb
  have hdata : (get_file_path p codec lang "stream").data
      = b ++ '.' :: la ++ '.' :: "stream".data ++ '.' :: codec.data := rfl
  have hstem : pyStem (b ++ '.' :: la ++ '.' :: "stream".data ++ '.' :: codec.data)
      = b ++ '.' :: la ++ '.' :: "stream".data := by
    have h1 : b ++ '.' :: la ++ '.' :: "stream".data ++ '.' :: codec.data
        = (b ++ '.' :: la ++ '.' :: "stream".data) ++ '.' :: codec.data := by
      simp [List.append_assoc]
    have hA : b ++ '.' :: la ++ '.' :: "stream".data ≠ [] := by simp
    have hsplit : splitLastDot ((b ++ '.' :: la ++ '.' :: "stream".data) ++ '.' :: codec.data)
        = some (b ++ '.' :: la ++ '.' :: "stream".data, codec.data) :=
      splitLastDot_append _ _ hcodecDot
    rw [h1]
    unfold pyStem
    rw [hsplit]
    exact if_pos ⟨hA, hcodec⟩
  have hrm : removeDotPat "stream".data (b ++ '.' :: la ++ '.' :: "stream".data)
      = b ++ '.' :: la := by
    have h2 : b ++ '.' :: la ++ '.' :: "stream".data
        = (b ++ '.' :: la) ++ dotPat "stream".data := by
      simp [dotPat, List.append_assoc]
    rw [h2]
    exact removeDotPat_clean _ _ hclean
  have hbase : cacheBaseName (get_file_path p codec lang "stream") "stream" = b := by
    show (let t := removeDotPat "stream".data (pyStem (get_file_path p codec lang "stream").data)
      match splitLastDot t with
      | none => t
      | some (a, c) => if c.length ≤ 3 then a else a ++ '.' :: c) = b
    rw [hdata, hstem, hrm]
    show (match splitLastDot (b ++ '.' :: la) with
      | none => b ++ '.' :: la
      | some (a, c) => if c.length ≤ 3 then a else a ++ '.' :: c) = b
    rw [splitLastDot_append b la hlangDot]
    have : la.length ≤ 3 := by rw [hlang]; omega
    exact if_pos this
  have houter : get_file_path (get_file_path p codec lang "stream") codec lang "stream"
      = String.mk (cacheBaseName (get_file_path p codec lang "stream") "stream"
          ++ '.' :: la ++ '.' :: "stream".data ++ '.' :: codec.data) := rfl
  rw [houter, hbase]
  rfl

theorem get_file_path_idempotent_witness :
    get_file_path (get_file_path "movie.mkv" "mp4" "eng" "stream") "mp4" "eng" "stream" =
      get_file_path "movie.mkv" "mp4" "eng" "stream" :=
  (get_file_path_idempotent_of_clean "movie.mkv" "mp4" "eng"
    (by decide) (by decide) (by decide) (by decide) (by decide)).1

/-! ## Media data model: `FfmpegStream` and `FfmpegMediaInfo` -/

inductive StreamType
  | video
  | audio
  | subtitle
deriving DecidableEq, Repr

/-- `helpers.FfmpegStream` (dataclass). -/
structure FfmpegStream where
  index : Nat
  type : StreamType
  codec : String
  title : String
  encoding_info : Option String
  language : Option String
deriving DecidableEq, Repr

/-- `helpers.FfmpegMediaInfo` (dataclass); only the fields the embedded
functions read are carried. -/
structure FfmpegMediaInfo where
  filename : String
  title : String
  bitrate : String
  duration : Option Nat
  streams : List FfmpegStream
  comment : Option String
deriving DecidableEq, Repr

def FfmpegMediaInfo.audios (info : FfmpegMediaInfo) : List FfmpegStream :=
  info.streams.filter (fun s => decide (s.type = StreamType.audio))

def FfmpegMediaInfo.subtitles (info : FfmpegMediaInfo) : List FfmpegStream :=
  info.streams.filter (fun s => decide (s.type = StreamType.subtitle))

/-- Python word character for the ASCII model of the regex class backslash-w. -/
def isWordChar (c : Char) : Bool := c.isAlphanum || c = '_'

def burnedTag : List Char := "burned-subs-lang:".data

/-- Leftmost match of the pattern `burned-subs-lang:` followed by two or
three word characters (greedy), as `re.search` finds it: a position whose
tag is followed by fewer than two word characters is skipped and the scan
continues at the next character. -/
def burnedScan : List Char → Option (List Char)
  | [] => none
  | c :: rest =>
    if burnedTag.isPrefixOf (c :: rest) then
      let w := (((c :: rest).drop burnedTag.length).takeWhile isWordChar).take 3
      if 2 ≤ w.length then some w else burnedScan rest
    else burnedScan rest

/-- `FfmpegMediaInfo.get_burned_subtitles_lang`. -/
def FfmpegMediaInfo.get_burned_subtitles_lang (info : FfmpegMediaInfo) : Option String :=
  match info.comment with
  | none => none
  | some c => (burnedScan c.data).map String.mk

/-- The external collaborators used by the CacheResolver: probing a file with
ffmpeg and checking path existence on disk. -/
structure ProbeEnv where
  get_media_info : String → FfmpegMediaInfo
  pathExists : String → Bool

/-- Python compares `media_audio != audio_file_info.audios[0].codec`, i.e. a
`FfmpegStream` dataclass instance against a bare `str`.  Values of distinct
types are never equal under Python `==`/`!=`, so this inequality is true for
every stream and every codec string. -/
def streamNeCodecString (_ : FfmpegStream) (_ : String) : Bool := true

/-! ## CacheResolver: `_matched_info` and `get_matched_media_stream_mp4` -/

/-- `_matched_info(file)` from `get_matched_media_stream_mp4`.  `Except.error`
models the `IndexError` raised by `audios[0]` on a file without audio
streams; the checks run in source order and return `false` on the first
mismatch. -/
def matched_info (env : ProbeEnv) (audio_file : Option String)
    (audio_stream : Option FfmpegStream) (subtitle_file : Option String)
    (subtitle_lang : Option String) (burn_subtitles : Bool)
    (file : String) : Except Unit Bool :=
  let media_info := env.get_media_info file
  match media_info.audios with
  | [] => Except.error ()
  | media_audio :: _ =>
    let media_subtitle := media_info.subtitles.head?
    let burn_fail : Bool :=
      burn_subtitles &&
        (match media_info.get_burned_subtitles_lang with
          | some lang => decide (some lang ≠ subtitle_lang)
          | none => true)
    let audio_stream_fail : Bool :=
      match audio_stream with
      | some s => decide (media_audio.codec ≠ s.codec)
      | none => false
    let subtitle_ok : Bool :=
      match subtitle_file, media_subtitle with
      | some _, none => false
      | some _, some ms => decide (ms.language = subtitle_lang)
      | none, _ => true
    if burn_fail then Except.ok false
    else if audio_stream_fail then Except.ok false
    else
      match audio_file with
      | some af =>
        match (env.get_media_info af).audios with
        | [] => Except.error ()
        | a0 :: _ =>
          if streamNeCodecString media_audio a0.codec then Except.ok false
          else Except.ok subtitle_ok
      | none => Except.ok subtitle_ok

/-- `get_media_stream_path(media_file, language)`. -/
def get_media_stream_path (media_file : String) (language : String) : String :=
  get_file_path media_file "mp4" language "stream"

/-- `get_matched_media_stream_mp4`: try the media file itself when it is an
MP4, then the canonical cache path when it exists on disk, else `none`. -/
def get_matched_media_stream_mp4 (env : ProbeEnv) (media_file : String)
    (audio_lang : String) (audio_file : Option String)
    (audio_stream : Option FfmpegStream) (subtitle_file : Option String)
    (subtitle_lang : Option String) (burn_subtitles : Bool) :
    Except Unit (Option String) :=
  match pyExtensionTok media_file.data with
  | none => Except.error ()
  | some e =>
    let step2 : Except Unit (Option String) :=
      let output_file := get_media_stream_path media_file audio_lang
      if env.pathExists output_file then
        match matched_info env audio_file audio_stream subtitle_file subtitle_lang burn_subtitles output_file with
        | Except.error u => Except.error u
        | Except.ok true => Except.ok (some output_file)
        | Except.ok false => Except.ok none
      else Except.ok none
    if String.mk e = "mp4" then
      match matched_info env audio_file audio_stream subtitle_file subtitle_lang burn_subtitles media_file with
      | Except.error u => Except.error u
      | Except.ok true => Except.ok (some media_file)
      | Except.ok false => step2
    else step2

/-- C1: `get_matched_media_stream_mp4` follows the specified decision order:
return the media file itself when it is an MP4 whose probed streams satisfy
the match predicate; otherwise return the canonical cache path when it exists
on disk and satisfies the predicate; otherwise return `none`.  The
hypotheses state that the file name has an extension and that the two match
predicate evaluations return without raising. -/
theorem get_matched_media_stream_mp4_decision_order (env : ProbeEnv)
    (media_file audio_lang : String) (audio_file : Option String)
    (audio_stream : Option FfmpegStream) (subtitle_file : Option String)
    (subtitle_lang : Option String) (burn_subtitles : Bool)
    (ext : List Char) (bm bc : Bool)
    (hext : pyExtensionTok media_file.data = some ext)
    (hm : matched_info env audio_file audio_stream subtitle_file subtitle_lang burn_subtitles
        media_file = Except.ok bm)
    (hc : matched_info env audio_file audio_stream subtitle_file subtitle_lang burn_subtitles
        (get_media_stream_path media_file audio_lang) = Except.ok bc) :
    get_matched_media_stream_mp4 env media_file audio_lang audio_file audio_stream
        subtitle_file subtitle_lang burn_subtitles =
      Except.ok (if String.mk ext = "mp4" ∧ bm = true then some media_file
        else if env.pathExists (get_media_stream_path media_file audio_lang) = true ∧ bc = true
          then some (get_media_stream_path media_file audio_lang)
          else none) := by
  cases bm <;> cases bc <;>
    by_cases he : String.mk ext = "mp4" <;>
    by_cases hp : env.pathExists (get_media_stream_path media_file audio_lang) = true <;>
    simp [get_matched_media_stream_mp4, hext, hm, hc, he, hp]

def c1Info : FfmpegMediaInfo :=
  { filename := "movie.mkv", title := "", bitrate := "", duration := none,
    streams := [{ index := 1, type := StreamType.audio, codec := "aac", title := "",
                  encoding_info := none, language := some "eng" }],
    comment := none }

def c1Env : ProbeEnv :=
  { get_media_info := fun _ => c1Info, pathExists := fun _ => true }

theorem get_matched_media_stream_mp4_decision_order_witness :
    get_matched_media_stream_mp4 c1Env "movie.mkv" "eng" none none none none false =
      Except.ok (some "movie.en.stream.mp4") := by
  have h := get_matched_media_stream_mp4_decision_order c1Env "movie.mkv" "eng"
    none none none none false "mkv".data true true rfl rfl rfl
  rw [h]
  rfl

def c2CandidateInfo : FfmpegMediaInfo :=
  { filename := "movie.en.stream.mp4", title := "", bitrate := "", duration := none,
    streams := [{ index := 1, type := StreamType.audio, codec := "aac", title := "",
                  encoding_info := none, language := some "eng" }],
    comment := none }

def c2AudioFileInfo : FfmpegMediaInfo :=
  { filename := "audio.eng.aac", title := "", bitrate := "", duration := none,
    streams := [{ index := 0, type := StreamType.audio, codec := "aac", title := "",
                  encoding_info := none, language := some "eng" }],
    comment := none }

def c2Env : ProbeEnv :=
  { get_media_info := fun p => if p = "audio.eng.aac" then c2AudioFileInfo else c2CandidateInfo,
    pathExists := fun _ => true }

/-- C2 (code bug evaluation): with an explicit external audio file the
cache-match predicate rejects a candidate whose first audio codec equals the
external file's first audio codec, because the source compares the stream
object itself against the codec string (`media_audio != audio_file_info.audios[0].codec`),
an inequality between values of different types that always holds.  The
second conjunct shows the two first-audio codecs are in fact equal. -/
theorem matched_info_rejects_matching_external_audio_codec :
    matched_info c2Env (some "audio.eng.aac") none none none false "movie.en.stream.mp4" =
      Except.ok false
    ∧ (c2Env.get_media_info "movie.en.stream.mp4").audios.head?.map FfmpegStream.codec
        = (c2Env.get_media_info "audio.eng.aac").audios.head?.map FfmpegStream.codec :=
  ⟨rfl, rfl⟩

def c6Audio : FfmpegStream :=
  { index := 1, type := StreamType.audio, codec := "aac", title := "",
    encoding_info := none, language := some "eng" }

def c6SubEng : FfmpegStream :=
  { index := 2, type := StreamType.subtitle, codec := "subrip", title := "",
    encoding_info := none, language := some "eng" }

def c6SubSpa : FfmpegStream :=
  { index := 3, type := StreamType.subtitle, codec := "subrip", title := "",
    encoding_info := none, language := some "spa" }

def c6Info : FfmpegMediaInfo :=
  { filename := "movie.mkv", title := "", bitrate := "", duration := none,
    streams := [c6Audio, c6SubEng, c6SubSpa], comment := none }

def c6Env : ProbeEnv :=
  { get_media_info := fun _ => c6Info, pathExists := fun _ => false }

/-- C6 counterexample: in embed-in-MP4 mode the predicate rejects a candidate
that does contain a subtitle stream of the desired language, because only the
first subtitle stream is inspected. -/
theorem matched_info_ignores_later_subtitle_streams :
    matched_info c6Env none none (some "subs.spa.srt") (some "spa") false "movie.mkv" =
      Except.ok false
    ∧ (c6Env.get_media_info "movie.mkv").subtitles.any
        (fun s => decide (s.language = some "spa")) = true :=
  ⟨rfl, rfl⟩

/-- C6 amended: with a desired subtitle file given (and no other constraint
active), the cache-match predicate accepts a candidate exactly when the
candidate's FIRST subtitle stream exists and its language equals the desired
subtitle language. -/
theorem matched_info_subtitle_check_first_stream (env : ProbeEnv) (sf file : String)
    (sl : Option String) (a0 : FfmpegStream) (as0 : List FfmpegStream)
    (haud : (env.get_media_info file).audios = a0 :: as0) :
    matched_info env none none (some sf) sl false file =
      Except.ok (match (env.get_media_info file).subtitles.head? with
        | none => false
        | some ms => decide (ms.language = sl)) := by
  simp only [matched_info, haud]
  cases hsub : (env.get_media_info file).subtitles.head? <;> simp [hsub]

theorem matched_info_subtitle_check_first_stream_witness :
    matched_info c6Env none none (some "subs.eng.srt") (some "eng") false "movie.mkv" =
      Except.ok true := by
  have h := matched_info_subtitle_check_first_stream c6Env "subs.eng.srt" "movie.mkv"
    (some "eng") c6Audio [] rfl
  rw [h]
  rfl

/-! ## BatchCoordinator: `batch_prepare_episodes` and the settings cache -/

/-- `BatchProcessingSettings` (dataclass): decisions cached from the first
episode of a batch. -/
structure BatchProcessingSettings where
  audio_stream_index : Option Nat
  audio_lang : Option String
  external_audio_file : Option String
  external_audio_stream_index : Option Nat
  convert_audio_to_aac : Option Bool
  select_subtitles : Option Bool
  subtitle_stream_index : Option Nat
  subtitle_lang : Option String
  external_subtitle_file : Option String
  convert_subtitle_to_vtt : Option Bool
  burn_subtitles : Bool
  add_subtitles_to_mp4 : Bool
deriving DecidableEq, Repr

/-- The dataclass defaults: every option unset, both flags false. -/
def defaultBatchSettings : BatchProcessingSettings :=
  ⟨none, none, none, none, none, none, none, none, none, none, false, false⟩

/-- `batch_prepare_episodes`, modelled over the global settings cache.

The collaborator `prepare` stands for `prepare_file_to_stream`: it reads and
mutates the cached settings and either returns normally (`none` error) or
raises (`some` error); on a raise the partially mutated settings are kept,
as Python leaves the mutated global in place.  The function returns the
final value of the global `_batch_settings_cache` together with the
propagated exception, if any.  The first episode is prepared outside any
try/except; the remaining episodes are prepared inside the per-episode
try/except, so their errors are swallowed.  The cache is reset to `none` on
the single-episode early return, on the user declining the batch
confirmation, and after the processing loop. -/
def batch_prepare_episodes (starting_episode : String) (episodes_to_process : List String)
    (prepare : String → BatchProcessingSettings → BatchProcessingSettings × Option Unit)
    (confirm_batch : Bool) :
    Option BatchProcessingSettings × Option Unit :=
  match prepare starting_episode defaultBatchSettings with
  | (s1, some e) => (some s1, some e)
  | (s1, none) =>
    match episodes_to_process.drop 1 with
    | [] => (none, none)
    | remaining1 :: remainingRest =>
      if confirm_batch then
        let _sFinal := (remaining1 :: remainingRest).foldl (fun s ep => (prepare ep s).1) s1
        (none, none)
      else (none, none)

def failingPrepare : String → BatchProcessingSettings → BatchProcessingSettings × Option Unit :=
  fun _ s => (s, some ())

def okPrepare : String → BatchProcessingSettings → BatchProcessingSettings × Option Unit :=
  fun _ s => (s, none)

/-- C3 counterexample: when the first episode's preparation raises, the
exception propagates out of `batch_prepare_episodes` and the global settings
cache is left set — it is not cleared on this abnormal exit path. -/
theorem batch_cache_not_cleared_on_error :
    (batch_prepare_episodes "e1" ["e1", "e2"] failingPrepare true).2 ≠ none
    ∧ (batch_prepare_episodes "e1" ["e1", "e2"] failingPrepare true).1 ≠ none := by
  constructor <;> decide

/-- C3 amended: the settings cache is cleared on every normal return of a
batch run — the single-episode early return, the user declining the batch
confirmation, and normal completion (including completions where individual
loop episodes failed) — but not when the first episode's preparation raises,
in which case the exception propagates with the cache still set. -/
theorem batch_cache_cleared_on_normal_return (starting_episode : String)
    (episodes_to_process : List String)
    (prepare : String → BatchProcessingSettings → BatchProcessingSettings × Option Unit)
    (confirm_batch : Bool)
    (h : (batch_prepare_episodes starting_episode episodes_to_process prepare confirm_batch).2
        = none) :
    (batch_prepare_episodes starting_episode episodes_to_process prepare confirm_batch).1
      = none := by
  unfold batch_prepare_episodes at h ⊢
  cases hp : prepare starting_episode defaultBatchSettings with
  | mk s1 err =>
    cases err with
    | some e => rw [hp] at h; simp at h
    | none =>
      cases hd : episodes_to_process.drop 1 with
      | nil => simp [hd]
      | cons r rs => by_cases hc : confirm_batch <;> simp [hd, hc]

theorem batch_cache_cleared_on_normal_return_witness :
    (batch_prepare_episodes "e1" ["e1", "e2"] okPrepare false).1 = none :=
  batch_cache_cleared_on_normal_return "e1" ["e1", "e2"] okPrepare false (by decide)

/-! ## StreamMatcher: language filtering and selection in `select_audio` /
`select_subtitle` -/

/-- The per-candidate language test used by both filters:
`x.language is None or x.language[:2] == lang[:2]`. -/
def lang2Matches (al : String) (language : Option String) : Bool :=
  match language with
  | none => true
  | some s => decide (s.data.take 2 = al.data.take 2)

/-- The language filter of `select_audio` (source lines 250-263): when a
language is requested (a non-empty string), keep the internal and external
candidates matching it; when both filtered lists are empty, fall back to the
full unfiltered lists (with a warning). -/
def select_audio_lang_filter (audio_lang : Option String) (audios : List FfmpegStream)
    (external_audios : List (String × FfmpegStream)) :
    List FfmpegStream × List (String × FfmpegStream) :=
  match audio_lang with
  | none => (audios, external_audios)
  | some al =>
    if al.data = [] then (audios, external_audios)
    else
      let matched_internal := audios.filter (fun a => lang2Matches al a.language)
      let matched_external := external_audios.filter (fun fa => lang2Matches al fa.2.language)
      if matched_internal = [] ∧ matched_external = [] then (audios, external_audios)
      else (matched_internal, matched_external)

/-- The language filter of `select_subtitle` (source lines 412-427); same
shape as the audio filter. -/
def select_subtitle_lang_filter (subtitle_lang : Option String)
    (subtitles : List FfmpegStream)
    (external_subtitles : List (String × FfmpegStream)) :
    List FfmpegStream × List (String × FfmpegStream) :=
  match subtitle_lang with
  | none => (subtitles, external_subtitles)
  | some sl =>
    if sl.data = [] then (subtitles, external_subtitles)
    else
      let matched_internal := subtitles.filter (fun s => lang2Matches sl s.language)
      let matched_external := external_subtitles.filter (fun fs => lang2Matches sl fs.2.language)
      if matched_internal = [] ∧ matched_external = [] then (subtitles, external_subtitles)
      else (matched_internal, matched_external)

/-- The index-selection step of `select_audio` (source lines 267-291): use a
cached batch index when present, otherwise consult the interactive ask-user
collaborator (whose answer is the `ask_index` parameter) and write the
answer into the batch cache when one is allocated.  The second component
records whether the interactive collaborator was consulted. -/
def select_audio_index (cache : Option BatchProcessingSettings) (ask_index : Nat) :
    Nat × Bool × Option BatchProcessingSettings :=
  match cache with
  | some st =>
    match st.audio_stream_index with
    | some i => (i, false, some st)
    | none => (ask_index, true, some { st with audio_stream_index := some ask_index })
  | none => (ask_index, true, none)

/-- Result of the filtering plus index-selection portion of `select_audio`. -/
structure AudioSelection where
  matched_audios : List FfmpegStream
  matched_external_audios : List (String × FfmpegStream)
  index : Nat
  asked_user : Bool
  cache : Option BatchProcessingSettings
  audio_media_stream_selected : Option FfmpegStream
  external_audio_selected : Option (String × FfmpegStream)
deriving DecidableEq, Repr

/-- Composition of the `select_audio` language filter, index selection and
candidate resolution (source lines 250-291):
`audios[index] if index < len(audios) else None`, and
`external_audios[index - len(audios)]` when `index >= len(audios)` — the
`IndexError` raised by an out-of-range external access is modelled as
`Except.error`. -/
def select_audio_selection (audio_lang : Option String)
    (cache : Option BatchProcessingSettings) (ask_index : Nat)
    (audios : List FfmpegStream) (external_audios : List (String × FfmpegStream)) :
    Except Unit AudioSelection :=
  let mi := (select_audio_lang_filter audio_lang audios external_audios).1
  let me := (select_audio_lang_filter audio_lang audios external_audios).2
  let ixr := select_audio_index cache ask_index
  if h : ixr.1 < mi.length then
    Except.ok
      { matched_audios := mi
        matched_external_audios := me
        index := ixr.1
        asked_user := ixr.2.1
        cache := ixr.2.2
        audio_media_stream_selected := some (mi.get ⟨ixr.1, h⟩)
        external_audio_selected := none }
  else
    match me.get? (ixr.1 - mi.length) with
    | none => Except.error ()
    | some fa =>
      Except.ok
        { matched_audios := mi
          matched_external_audios := me
          index := ixr.1
          asked_user := ixr.2.1
          cache := ixr.2.2
          audio_media_stream_selected := none
          external_audio_selected := some fa }

/-- The index-selection step of `select_subtitle` (source lines 451-472):
use a cached batch subtitle index when present, otherwise consult the
interactive ask-user collaborator (whose answer is the `ask_index`
parameter) and cache the answer when a batch cache is allocated. -/
def select_subtitle_index (cache : Option BatchProcessingSettings) (ask_index : Nat) :
    Nat × Bool × Option BatchProcessingSettings :=
  match cache with
  | some st =>
    match st.subtitle_stream_index with
    | some i => (i, false, some st)
    | none => (ask_index, true, some { st with subtitle_stream_index := some ask_index })
  | none => (ask_index, true, none)

/-- Result of the filtering, select-subtitles gate and index-selection
portion of `select_subtitle`. -/
structure SubtitleSelection where
  matched_subtitles : List FfmpegStream
  matched_external_subtitles : List (String × FfmpegStream)
  select_subs : Bool
  asked_confirm : Bool
  asked_user : Bool
  cache : Option BatchProcessingSettings
  media_stream_subtitle : Option Nat
  external_subtitle_selected : Option (String × FfmpegStream)
deriving DecidableEq, Repr

/-- Composition of the `select_subtitle` language filter, the
select-subtitles confirmation gate (cached decision, or the
`confirm_answer` returned by the interactive collaborator, consulted only
when at least one candidate exists), the index-selection step and
candidate resolution (source lines 429-495):
`subtitles[index].index if index < len(subtitles) else None`, and
`external_subtitles[index - len(subtitles)]` when `index >= len(subtitles)`
— an out-of-range external access raises `IndexError`, modelled as
`Except.error`. -/
def select_subtitle_selection (subtitle_lang : Option String)
    (cache : Option BatchProcessingSettings) (confirm_answer : Bool) (ask_index : Nat)
    (subtitles : List FfmpegStream) (external_subtitles : List (String × FfmpegStream)) :
    Except Unit SubtitleSelection :=
  let ms := (select_subtitle_lang_filter subtitle_lang subtitles external_subtitles).1
  let me := (select_subtitle_lang_filter subtitle_lang subtitles external_subtitles).2
  let sres : Bool × Bool × Option BatchProcessingSettings :=
    if ms.isEmpty && me.isEmpty then (false, false, cache)
    else
      match cache with
      | some st =>
        match st.select_subtitles with
        | some b => (b, false, some st)
        | none => (confirm_answer, true, some { st with select_subtitles := some confirm_answer })
      | none => (confirm_answer, true, none)
  if sres.1 then
    let ixr := select_subtitle_index sres.2.2 ask_index
    if h : ixr.1 < ms.length then
      Except.ok
        { matched_subtitles := ms
          matched_external_subtitles := me
          select_subs := true
          asked_confirm := sres.2.1
          asked_user := ixr.2.1
          cache := ixr.2.2
          media_stream_subtitle := some ((ms.get ⟨ixr.1, h⟩).index)
          external_subtitle_selected := none }
    else
      match me.get? (ixr.1 - ms.length) with
      | none => Except.error ()
      | some fs =>
        Except.ok
          { matched_subtitles := ms
            matched_external_subtitles := me
            select_subs := true
            asked_confirm := sres.2.1
            asked_user := ixr.2.1
            cache := ixr.2.2
            media_stream_subtitle := none
            external_subtitle_selected := some fs }
  else
    Except.ok
      { matched_subtitles := ms
        matched_external_subtitles := me
        select_subs := false
        asked_confirm := sres.2.1
        asked_user := false
        cache := sres.2.2
        media_stream_subtitle := none
        external_subtitle_selected := none }

def engAacStream : FfmpegStream :=
  { index := 1, type := StreamType.audio, codec := "aac", title := "eng audio",
    encoding_info := none, language := some "eng" }

def spaAc3Stream : FfmpegStream :=
  { index := 2, type := StreamType.audio, codec := "ac3", title := "spa audio",
    encoding_info := none, language := some "spa" }

/-- C5 counterexample: in language-targeted non-batch mode with exactly one
candidate remaining after the filter, the matcher still consults the
interactive ask-user collaborator — the selection step is unconditional when
no cached batch index exists. -/
theorem select_audio_unique_match_still_asks :
    (select_audio_selection (some "spa") none 0 [engAacStream, spaAc3Stream] []).map
        (fun r => (r.matched_audios.length + r.matched_external_audios.length, r.asked_user))
      = Except.ok (1, true) := rfl

/-- C5 amended: when exactly one candidate remains after the language filter
and no batch cache is allocated, the matcher still goes through the ask-user
collaborator; with the collaborator returning the only valid index 0, the
unique candidate (internal or external) is the one selected, and the call
returns without raising.  The subtitle path behaves the same way once the
user has opted to select subtitles (itself a cached or interactive
confirmation): the unique post-filter subtitle candidate is selected through
the prompt. -/
theorem select_stream_unique_match_selected_via_prompt
    (audio_lang subtitle_lang : Option String)
    (audios : List FfmpegStream) (external_audios : List (String × FfmpegStream))
    (subtitles : List FfmpegStream) (external_subtitles : List (String × FfmpegStream))
    (ha : (select_audio_lang_filter audio_lang audios external_audios).1.length
        + (select_audio_lang_filter audio_lang audios external_audios).2.length = 1)
    (hs : (select_subtitle_lang_filter subtitle_lang subtitles external_subtitles).1.length
        + (select_subtitle_lang_filter subtitle_lang subtitles external_subtitles).2.length = 1) :
    (∃ r, select_audio_selection audio_lang none 0 audios external_audios = Except.ok r
      ∧ r.asked_user = true
      ∧ r.audio_media_stream_selected
          = (select_audio_lang_filter audio_lang audios external_audios).1.head?
      ∧ r.external_audio_selected
          = (select_audio_lang_filter audio_lang audios external_audios).2.head?)
    ∧ (∃ r, select_subtitle_selection subtitle_lang none true 0 subtitles external_subtitles
          = Except.ok r
      ∧ r.asked_user = true
      ∧ r.media_stream_subtitle
          = ((select_subtitle_lang_filter subtitle_lang subtitles external_subtitles).1.head?).map
              FfmpegStream.index
      ∧ r.external_subtitle_selected
          = (select_subtitle_lang_filter subtitle_lang subtitles external_subtitles).2.head?) := by
  constructor
  · cases hmi : (select_audio_lang_filter audio_lang audios external_audios).1 with
    | nil =>
      cases hme : (select_audio_lang_filter audio_lang audios external_audios).2 with
      | nil => exfalso; rw [hmi, hme] at ha; simp at ha
      | cons p ps =>
        refine ⟨
          { matched_audios := [], matched_external_audios := p :: ps, index := 0,
            asked_user := true, cache := none,
            audio_media_stream_selected := none, external_audio_selected := some p },
          ?_, rfl, ?_, ?_⟩
        · simp [select_audio_selection, select_audio_index, hmi, hme]
        · rfl
        · rfl
    | cons a as =>
      have has : as = [] := by
        rw [hmi] at ha
        simp only [List.length_cons] at ha
        have : as.length = 0 := by omega
        exact List.length_eq_zero.mp this
      subst has
      have hme : (select_audio_lang_filter audio_lang audios external_audios).2 = [] := by
        rw [hmi] at ha
        simp only [List.length_cons] at ha
        have : (select_audio_lang_filter audio_lang audios external_audios).2.length = 0 := by
          omega
        exact List.length_eq_zero.mp this
      refine ⟨
        { matched_audios := [a],
          matched_external_audios := (select_audio_lang_filter audio_lang audios external_audios).2,
          index := 0, asked_user := true, cache := none,
          audio_media_stream_selected := some a, external_audio_selected := none },
        ?_, rfl, ?_, ?_⟩
      · simp [select_audio_selection, select_audio_index, hmi]
      · rfl
      · rw [hme]; rfl
  · cases hms : (select_subtitle_lang_filter subtitle_lang subtitles external_subtitles).1 with
    | nil =>
      cases hme : (select_subtitle_lang_filter subtitle_lang subtitles external_subtitles).2 with
      | nil => exfalso; rw [hms, hme] at hs; simp at hs
      | cons p ps =>
        refine ⟨
          { matched_subtitles := [], matched_external_subtitles := p :: ps,
            select_subs := true, asked_confirm := true, asked_user := true, cache := none,
            media_stream_subtitle := none, external_subtitle_selected := some p },
          ?_, rfl, ?_, ?_⟩
        · simp [select_subtitle_selection, select_subtitle_index, hms, hme]
        · rfl
        · rfl
    | cons s ss =>
      have hss : ss = [] := by
        rw [hms] at hs
        simp only [List.length_cons] at hs
        have : ss.length = 0 := by omega
        exact List.length_eq_zero.mp this
      subst hss
      have hme : (select_subtitle_lang_filter subtitle_lang subtitles external_subtitles).2
          = [] := by
        rw [hms] at hs
        simp only [List.length_cons] at hs
        have : (select_subtitle_lang_filter subtitle_lang subtitles
            external_subtitles).2.length = 0 := by omega
        exact List.length_eq_zero.mp this
      refine ⟨
        { matched_subtitles := [s],
          matched_external_subtitles :=
            (select_subtitle_lang_filter subtitle_lang subtitles external_subtitles).2,
          select_subs := true, asked_confirm := true, asked_user := true, cache := none,
          media_stream_subtitle := some s.index, external_subtitle_selected := none },
        ?_, rfl, ?_, ?_⟩
      · simp [select_subtitle_selection, select_subtitle_index, hms]
      · rfl
      · rw [hme]; rfl

theorem select_stream_unique_match_selected_via_prompt_witness :
    (∃ r, select_audio_selection (some "spa") none 0 [engAacStream, spaAc3Stream] []
        = Except.ok r ∧ r.asked_user = true ∧ r.audio_media_stream_selected = some spaAc3Stream)
    ∧ (∃ r, select_subtitle_selection (some "spa") none true 0 [c6SubEng, c6SubSpa] []
        = Except.ok r ∧ r.asked_user = true ∧ r.media_stream_subtitle = some 3) := by
  have h := select_stream_unique_match_selected_via_prompt (some "spa") (some "spa")
    [engAacStream, spaAc3Stream] [] [c6SubEng, c6SubSpa] [] (by decide) (by decide)
  obtain ⟨⟨r1, he1, ha1, hi1, _⟩, ⟨r2, he2, ha2, hi2, _⟩⟩ := h
  refine ⟨⟨r1, he1, ha1, ?_⟩, ⟨r2, he2, ha2, ?_⟩⟩
  · rw [hi1]; rfl
  · rw [hi2]; rfl

/-- C9: candidates with absent language are wildcards for the language
filters of `select_audio` and `select_subtitle`: they are never excluded,
whatever language is requested; and when a requested language filters
everything out, the full unfiltered candidate lists are offered instead. -/
theorem wildcard_language_matching_kept (lang : Option String)
    (audios : List FfmpegStream) (external_audios : List (String × FfmpegStream))
    (subtitles : List FfmpegStream) (external_subtitles : List (String × FfmpegStream)) :
    (∀ a, a ∈ audios → a.language = none →
        a ∈ (select_audio_lang_filter lang audios external_audios).1)
    ∧ (∀ fa, fa ∈ external_audios → fa.2.language = none →
        fa ∈ (select_audio_lang_filter lang audios external_audios).2)
    ∧ (∀ s, s ∈ subtitles → s.language = none →
        s ∈ (select_subtitle_lang_filter lang subtitles external_subtitles).1)
    ∧ (∀ fs, fs ∈ external_subtitles → fs.2.language = none →
        fs ∈ (select_subtitle_lang_filter lang subtitles external_subtitles).2)
    ∧ (∀ al, lang = some al →
        audios.filter (fun a => lang2Matches al a.language) = [] →
        external_audios.filter (fun fa => lang2Matches al fa.2.language) = [] →
        select_audio_lang_filter lang audios external_audios = (audios, external_audios))
    ∧ (∀ sl, lang = some sl →
        subtitles.filter (fun s => lang2Matches sl s.language) = [] →
        external_subtitles.filter (fun fs => lang2Matches sl fs.2.language) = [] →
        select_subtitle_lang_filter lang subtitles external_subtitles
          = (subtitles, external_subtitles)) := by
  refine ⟨?_, ?_, ?_, ?_, ?_, ?_⟩
  · intro a ha hnone
    cases lang with
    | none => simpa [select_audio_lang_filter] using ha
    | some al =>
      by_cases hemp : al.data = []
      · simpa [select_audio_lang_filter, hemp] using ha
      · by_cases hboth : audios.filter (fun a => lang2Matches al a.language) = []
            ∧ external_audios.filter (fun fa => lang2Matches al fa.2.language) = []
        · simpa [select_audio_lang_filter, hemp, hboth] using ha
        · have hmem : a ∈ audios.filter (fun a => lang2Matches al a.language) :=
            List.mem_filter.mpr ⟨ha, by rw [hnone]; rfl⟩
          have hgoal : select_audio_lang_filter (some al) audios external_audios
              = (audios.filter (fun a => lang2Matches al a.language),
                 external_audios.filter (fun fa => lang2Matches al fa.2.language)) := by
            show (if al.data = [] then (audios, external_audios)
              else if audios.filter (fun a => lang2Matches al a.language) = []
                  ∧ external_audios.filter (fun fa => lang2Matches al fa.2.language) = []
                then (audios, external_audios)
                else (audios.filter (fun a => lang2Matches al a.language),
                      external_audios.filter (fun fa => lang2Matches al fa.2.language))) = _
            rw [if_neg hemp, if_neg hboth]
          rw [hgoal]
          exact hmem
  · intro fa ha hnone
    cases lang with
    | none => simpa [select_audio_lang_filter] using ha
    | some al =>
      by_cases hemp : al.data = []
      · simpa [select_audio_lang_filter, hemp] using ha
      · by_cases hboth : audios.filter (fun a => lang2Matches al a.language) = []
            ∧ external_audios.filter (fun fa => lang2Matches al fa.2.language) = []
        · simpa [select_audio_lang_filter, hemp, hboth] using ha
        · have hmem : fa ∈ external_audios.filter (fun fa => lang2Matches al fa.2.language) :=
            List.mem_filter.mpr ⟨ha, by rw [hnone]; rfl⟩
          have hgoal : select_audio_lang_filter (some al) audios external_audios
              = (audios.filter (fun a => lang2Matches al a.language),
                 external_audios.filter (fun fa => lang2Matches al fa.2.language)) := by
            show (if al.data = [] then (audios, external_audios)
              else if audios.filter (fun a => lang2Matches al a.language) = []
                  ∧ external_audios.filter (fun fa => lang2Matches al fa.2.language) = []
                then (audios, external_audios)
                else (audios.filter (fun a => lang2Matches al a.language),
                      external_audios.filter (fun fa => lang2Matches al fa.2.language))) = _
            rw [if_neg hemp, if_neg hboth]
          rw [hgoal]
          exact hmem
  · intro s hs hnone
    cases lang with
    | none => simpa [select_subtitle_lang_filter] using hs
    | some sl =>
      by_cases hemp : sl.data = []
      · simpa [select_subtitle_lang_filter, hemp] using hs
      · by_cases hboth : subtitles.filter (fun s => lang2Matches sl s.language) = []
            ∧ external_subtitles.filter (fun fs => lang2Matches sl fs.2.language) = []
        · simpa [select_subtitle_lang_filter, hemp, hboth] using hs
        · have hmem : s ∈ subtitles.filter (fun s => lang2Matches sl s.language) :=
            List.mem_filter.mpr ⟨hs, by rw [hnone]; rfl⟩
          have hgoal : select_subtitle_lang_filter (some sl) subtitles external_subtitles
              = (subtitles.filter (fun s => lang2Matches sl s.language),
                 external_subtitles.filter (fun fs => lang2Matches sl fs.2.language)) := by
            show (if sl.data = [] then (subtitles, external_subtitles)
              else if subtitles.filter (fun s => lang2Matches sl s.language) = []
                  ∧ external_subtitles.filter (fun fs => lang2Matches sl fs.2.language) = []
                then (subtitles, external_subtitles)
                else (subtitles.filter (fun s => lang2Matches sl s.language),
                      external_subtitles.filter (fun fs => lang2Matches sl fs.2.language))) = _
            rw [if_neg hemp, if_neg hboth]
          rw [hgoal]
          exact hmem
  · intro fs hs hnone
    cases lang with
    | none => simpa [select_subtitle_lang_filter] using hs
    | some sl =>
      by_cases hemp : sl.data = []
      · simpa [select_subtitle_lang_filter, hemp] using hs
      · by_cases hboth : subtitles.filter (fun s => lang2Matches sl s.language) = []
            ∧ external_subtitles.filter (fun fs => lang2Matches sl fs.2.language) = []
        · simpa [select_subtitle_lang_filter, hemp, hboth] using hs
        · have hmem : fs ∈ external_subtitles.filter (fun fs => lang2Matches sl fs.2.language) :=
            List.mem_filter.mpr ⟨hs, by rw [hnone]; rfl⟩
          have hgoal : select_subtitle_lang_filter (some sl) subtitles external_subtitles
              = (subtitles.filter (fun s => lang2Matches sl s.language),
                 external_subtitles.filter (fun fs => lang2Matches sl fs.2.language)) := by
            show (if sl.data = [] then (subtitles, external_subtitles)
              else if subtitles.filter (fun s => lang2Matches sl s.language) = []
                  ∧ external_subtitles.filter (fun fs => lang2Matches sl fs.2.language) = []
                then (subtitles, external_subtitles)
                else (subtitles.filter (fun s => lang2Matches sl s.language),
                      external_subtitles.filter (fun fs => lang2Matches sl fs.2.language))) = _
            rw [if_neg hemp, if_neg hboth]
          rw [hgoal]
          exact hmem
  · intro al hal hf1 hf2
    subst hal
    by_cases hemp : al.data = []
    · simp [select_audio_lang_filter, hemp]
    · simp [select_audio_lang_filter, hemp, hf1, hf2]
  · intro sl hsl hf1 hf2
    subst hsl
    by_cases hemp : sl.data = []
    · simp [select_subtitle_lang_filter, hemp]
    · simp [select_subtitle_lang_filter, hemp, hf1, hf2]

def wildcardAacStream : FfmpegStream :=
  { index := 3, type := StreamType.audio, codec := "aac", title := "und",
    encoding_info := none, language := none }

theorem wildcard_language_matching_kept_witness :
    wildcardAacStream ∈ (select_audio_lang_filter (some "spa") [wildcardAacStream] []).1 :=
  (wildcard_language_matching_kept (some "spa") [wildcardAacStream] [] [] []).1
    wildcardAacStream (by simp) rfl

/-! ## BatchCoordinator detection: `is_tv_show_directory` -/

/-- Python regex whitespace class (ASCII model). -/
def pyIsSpace (c : Char) : Bool :=
  c = ' ' || c = '\t' || c = '\n' || c = '\r' || c = '\x0b' || c = '\x0c'

/-- `re.sub(r"<ws>*_<ws>*", "_", stem)`: collapse an underscore together with
the whitespace around it into a single underscore, scanning left to right.
The fuel argument bounds the recursion; the wrapper passes the string
length, which suffices because every step consumes at least one character. -/
def pyNormUnderscoreAux : Nat → List Char → List Char
  | 0, _ => []
  | _ + 1, [] => []
  | n + 1, c :: rest =>
    let ws := (c :: rest).takeWhile pyIsSpace
    match (c :: rest).drop ws.length with
    | '_' :: r2 => '_' :: pyNormUnderscoreAux n (r2.dropWhile pyIsSpace)
    | _ => c :: pyNormUnderscoreAux n rest

def pyNormUnderscore (l : List Char) : List Char :=
  pyNormUnderscoreAux l.length l

/-- Longest common prefix of two strings. -/
def lcp2 : List Char → List Char → List Char
  | a :: as, b :: bs => if a = b then a :: lcp2 as bs else []
  | _, _ => []

/-- `find_common_prefix(strings)`: the longest literal prefix shared by all
strings (empty list gives the empty prefix). -/
def lcpAll : List (List Char) → List Char
  | [] => []
  | s :: rest => rest.foldl lcp2 s

/-- The strip set `"_- "` used by `lstrip`/`rstrip` in the episode logic. -/
def stripChars : List Char := ['_', '-', ' ']

def pyLstripSet (chars l : List Char) : List Char :=
  l.dropWhile (fun c => decide (c ∈ chars))

def pyRstripSet (chars l : List Char) : List Char :=
  (pyLstripSet chars l.reverse).reverse

/-- Index of the first decimal digit (`re.search(r"<digit>")`). -/
def firstDigitIdx (l : List Char) : Option Nat :=
  l.findIdx? Char.isDigit

/-- First maximal run of decimal digits (`re.findall(r"<digit>+")[0]`). -/
def firstDigitRun : List Char → Option (List Char)
  | [] => none
  | c :: rest =>
    if c.isDigit then some ((c :: rest).takeWhile Char.isDigit)
    else firstDigitRun rest

def digitsToNat (l : List Char) : Nat :=
  l.foldl (fun acc c => 10 * acc + (c.toNat - '0'.toNat)) 0

/-- The stem filter of `is_tv_show_directory`: drop stems whose lowercase
form is one of the generic placeholders and stems containing the `.stream`
cache marker. -/
def tv_candidate_stems (stems : List String) : List String :=
  stems.filter (fun s =>
    !(decide (pyLower s.data = "video".data) || decide (pyLower s.data = "movie".data)
        || decide (pyLower s.data = "film".data))
    && !(containsTok ".stream".data s.data))

/-- The common prefix used for episode-number extraction: the literal common
prefix of the normalized stems or, when that is whitespace-only, the common
prefix of the up-to-first-digit patterns (kept unchanged when no stem
contains a digit). -/
def tv_prefix_of (normalized : List (List Char)) : List Char :=
  let p := lcpAll normalized
  if p.all pyIsSpace then
    let show_patterns := normalized.filterMap (fun st =>
      match firstDigitIdx st with
      | some i => some (pyRstripSet stripChars (st.take i))
      | none => none)
    match show_patterns with
    | [] => p
    | q :: qs => lcpAll (q :: qs)
  else p

/-- The episode numbers of the normalized stems: strip the common prefix
(when the prefix is nonempty and strictly shorter than the stem), strip
leading `"_- "` characters, and take the first run of digits. -/
def tv_episode_numbers (normalized : List (List Char)) (pfx : List Char) : List Nat :=
  normalized.filterMap (fun st =>
    let remaining := if pfx ≠ [] ∧ pfx.length < st.length
      then pyLstripSet stripChars (st.drop pfx.length)
      else st
    (firstDigitRun remaining).map digitsToNat)

/-- Number of distinct episode numbers found among the candidate stems. -/
def tv_distinct_episode_count (candidates : List String) : Nat :=
  let normalized := candidates.map (fun s => pyNormUnderscore s.data)
  (tv_episode_numbers normalized (tv_prefix_of normalized)).dedup.length

/-- `is_tv_show_directory`, as a function of the stems of the video files
listed non-recursively in the directory. -/
def is_tv_show_stems (stems : List String) : Bool :=
  let candidates := tv_candidate_stems stems
  if candidates.length < 2 then false
  else
    decide (candidates.length ≤ 2 * tv_distinct_episode_count candidates
      ∧ 2 ≤ tv_distinct_episode_count candidates)

/-- C7: a directory is classified as a TV-show batch exactly when, after
excluding placeholder stems and `.stream`-marked stems, at least two
candidate stems remain, the number of distinct extracted episode numbers is
at least 2, and that number covers at least half of the candidate stems. -/
theorem is_tv_show_stems_spec (stems : List String) :
    is_tv_show_stems stems = true ↔
      (2 ≤ (tv_candidate_stems stems).length
       ∧ 2 ≤ tv_distinct_episode_count (tv_candidate_stems stems)
       ∧ (tv_candidate_stems stems).length
          ≤ 2 * tv_distinct_episode_count (tv_candidate_stems stems)) := by
  unfold is_tv_show_stems
  by_cases h : (tv_candidate_stems stems).length < 2
  · simp only [h, if_true]
    constructor
    · intro hfalse; exact absurd hfalse (by simp)
    · intro hc; omega
  · simp only [h, if_false, decide_eq_true_eq]
    constructor
    · intro hc; exact ⟨by omega, hc.2, hc.1⟩
    · intro hc; exact ⟨hc.2.2, hc.2.1⟩

/-! ## Repack mode: `SelectedStream`, `_resolve_stream_indices`,
`_selection_signature` and the grouping in `confirm_repack` -/

/-- The `tp.Literal["audio", "subtitle"]` type of `SelectedStream.stream_type`. -/
inductive SelectedKind
  | audio
  | subtitle
deriving DecidableEq, Repr

/-- `SelectedStream` (dataclass): a stream chosen by the user, identified by
type, language and 0-based position within the same type-and-language
group. -/
structure SelectedStream where
  stream_type : SelectedKind
  language : Option String
  position : Nat
deriving DecidableEq, Repr

/-- `RepackGroup` (dataclass). -/
structure RepackGroup where
  files : List String
  selected_streams : List SelectedStream
deriving DecidableEq, Repr

/-- `_resolve_stream_indices`: map selected-stream identities to ffmpeg
stream indices; a selection whose position exceeds the number of matching
streams is skipped with a warning. -/
def resolve_stream_indices (info : FfmpegMediaInfo) :
    List SelectedStream → List Nat × List Nat
  | [] => ([], [])
  | sel :: rest =>
    let tail := resolve_stream_indices info rest
    let candidates := if sel.stream_type = SelectedKind.audio then info.audios else info.subtitles
    let matching := candidates.filter (fun s => decide (s.language = sel.language))
    if h : sel.position < matching.length then
      let idx := (matching.get ⟨sel.position, h⟩).index
      if sel.stream_type = SelectedKind.audio then (idx :: tail.1, tail.2)
      else (tail.1, idx :: tail.2)
    else tail

/-- C10: `_resolve_stream_indices` is total and in bounds: out-of-range
selections are skipped (no exception and no out-of-range access, which the
embedding shows by construction), every returned audio (resp. subtitle)
index is the ffmpeg index of an audio (resp. subtitle) stream whose language
equals that of one of the selections of that kind, and the two returned
lists together have at most as many elements as the selection list. -/
theorem resolve_stream_indices_sound (info : FfmpegMediaInfo)
    (selected : List SelectedStream) :
    ((resolve_stream_indices info selected).1.length
        + (resolve_stream_indices info selected).2.length ≤ selected.length)
    ∧ (∀ i, i ∈ (resolve_stream_indices info selected).1 →
        ∃ sel s, sel ∈ selected ∧ sel.stream_type = SelectedKind.audio
          ∧ s ∈ info.audios ∧ s.language = sel.language ∧ s.index = i)
    ∧ (∀ i, i ∈ (resolve_stream_indices info selected).2 →
        ∃ sel s, sel ∈ selected ∧ sel.stream_type = SelectedKind.subtitle
          ∧ s ∈ info.subtitles ∧ s.language = sel.language ∧ s.index = i) := by
  induction selected with
  | nil => exact ⟨by simp [resolve_stream_indices], by simp [resolve_stream_indices],
      by simp [resolve_stream_indices]⟩
  | cons sel rest ih =>
    obtain ⟨ihlen, ihaud, ihsub⟩ := ih
    by_cases hk : sel.stream_type = SelectedKind.audio
    · by_cases hpos : sel.position < (info.audios.filter
          (fun s => decide (s.language = sel.language))).length
      · have heq : resolve_stream_indices info (sel :: rest)
            = (((info.audios.filter (fun s => decide (s.language = sel.language))).get
                  ⟨sel.position, hpos⟩).index :: (resolve_stream_indices info rest).1,
               (resolve_stream_indices info rest).2) := by
          simp [resolve_stream_indices, hk, hpos]
        rw [heq]
        refine ⟨by simpa using Nat.le_trans (by omega) (Nat.succ_le_succ ihlen), ?_, ?_⟩
        · intro i hi
          rcases List.mem_cons.mp hi with hhead | htail
          · refine ⟨sel, (info.audios.filter
                (fun s => decide (s.language = sel.language))).get ⟨sel.position, hpos⟩,
              List.mem_cons_self _ _, hk, ?_, ?_, hhead.symm⟩
            · exact List.mem_of_mem_filter (List.get_mem _ _ _)
            · have := List.of_mem_filter (List.get_mem
                (info.audios.filter (fun s => decide (s.language = sel.language)))
                sel.position hpos)
              exact of_decide_eq_true this
          · obtain ⟨sel2, s2, hs1, hs2, hs3, hs4, hs5⟩ := ihaud i htail
            exact ⟨sel2, s2, List.mem_cons_of_mem _ hs1, hs2, hs3, hs4, hs5⟩
        · intro i hi
          obtain ⟨sel2, s2, hs1, hs2, hs3, hs4, hs5⟩ := ihsub i hi
          exact ⟨sel2, s2, List.mem_cons_of_mem _ hs1, hs2, hs3, hs4, hs5⟩
      · have heq : resolve_stream_indices info (sel :: rest)
            = resolve_stream_indices info rest := by
          simp [resolve_stream_indices, hk, hpos]
        rw [heq]
        refine ⟨by simp only [List.length_cons]; omega, ?_, ?_⟩
        · intro i hi
          obtain ⟨sel2, s2, hs1, hs2, hs3, hs4, hs5⟩ := ihaud i hi
          exact ⟨sel2, s2, List.mem_cons_of_mem _ hs1, hs2, hs3, hs4, hs5⟩
        · intro i hi
          obtain ⟨sel2, s2, hs1, hs2, hs3, hs4, hs5⟩ := ihsub i hi
          exact ⟨sel2, s2, List.mem_cons_of_mem _ hs1, hs2, hs3, hs4, hs5⟩
    · have hk2 : sel.stream_type = SelectedKind.subtitle := by
        cases hkk : sel.stream_type
        · exact absurd hkk hk
        · rfl
      by_cases hpos : sel.position < (info.subtitles.filter
          (fun s => decide (s.language = sel.language))).length
      · have heq : resolve_stream_indices info (sel :: rest)
            = ((resolve_stream_indices info rest).1,
               ((info.subtitles.filter (fun s => decide (s.language = sel.language))).get
                  ⟨sel.position, hpos⟩).index :: (resolve_stream_indices info rest).2) := by
          simp [resolve_stream_indices, hk, hpos]
        rw [heq]
        refine ⟨by simpa using Nat.le_trans (by omega) (Nat.succ_le_succ ihlen), ?_, ?_⟩
        · intro i hi
          obtain ⟨sel2, s2, hs1, hs2, hs3, hs4, hs5⟩ := ihaud i hi
          exact ⟨sel2, s2, List.mem_cons_of_mem _ hs1, hs2, hs3, hs4, hs5⟩
        · intro i hi
          rcases List.mem_cons.mp hi with hhead | htail
          · refine ⟨sel, (info.subtitles.filter
                (fun s => decide (s.language = sel.language))).get ⟨sel.position, hpos⟩,
              List.mem_cons_self _ _, hk2, ?_, ?_, hhead.symm⟩
            · exact List.mem_of_mem_filter (List.get_mem _ _ _)
            · have := List.of_mem_filter (List.get_mem
                (info.subtitles.filter (fun s => decide (s.language = sel.language)))
                sel.position hpos)
              exact of_decide_eq_true this
          · obtain ⟨sel2, s2, hs1, hs2, hs3, hs4, hs5⟩ := ihsub i htail
            exact ⟨sel2, s2, List.mem_cons_of_mem _ hs1, hs2, hs3, hs4, hs5⟩
      · have heq : resolve_stream_indices info (sel :: rest)
            = resolve_stream_indices info rest := by
          simp [resolve_stream_indices, hk, hpos]
        rw [heq]
        refine ⟨by simp only [List.length_cons]; omega, ?_, ?_⟩
        · intro i hi
          obtain ⟨sel2, s2, hs1, hs2, hs3, hs4, hs5⟩ := ihaud i hi
          exact ⟨sel2, s2, List.mem_cons_of_mem _ hs1, hs2, hs3, hs4, hs5⟩
        · intro i hi
          obtain ⟨sel2, s2, hs1, hs2, hs3, hs4, hs5⟩ := ihsub i hi
          exact ⟨sel2, s2, List.mem_cons_of_mem _ hs1, hs2, hs3, hs4, hs5⟩

def c10Info : FfmpegMediaInfo :=
  { filename := "e1.mkv", title := "", bitrate := "", duration := none,
    streams := [engAacStream, spaAc3Stream, c6SubEng], comment := none }

def c10Selected : List SelectedStream :=
  [{ stream_type := SelectedKind.audio, language := some "spa", position := 0 },
   { stream_type := SelectedKind.subtitle, language := some "rus", position := 5 }]

theorem resolve_stream_indices_sound_witness :
    ((resolve_stream_indices c10Info c10Selected).1.length
        + (resolve_stream_indices c10Info c10Selected).2.length ≤ c10Selected.length)
    ∧ ∃ sel s, sel ∈ c10Selected ∧ sel.stream_type = SelectedKind.audio
        ∧ s ∈ c10Info.audios ∧ s.language = sel.language ∧ s.index = 2 := by
  have h := resolve_stream_indices_sound c10Info c10Selected
  exact ⟨h.1, h.2.1 2 (by decide)⟩

/-- Insertion-order deduplication, as a Python `dict` accumulates keys. -/
def firstDedupAux [DecidableEq α] (seen : List α) : List α → List α
  | [] => []
  | a :: l => if a ∈ seen then firstDedupAux seen l else a :: firstDedupAux (a :: seen) l

def firstDedup [DecidableEq α] (l : List α) : List α := firstDedupAux [] l

theorem mem_firstDedupAux [DecidableEq α] (x : α) :
    ∀ (l seen : List α), x ∈ firstDedupAux seen l ↔ (x ∈ l ∧ x ∉ seen) := by
  intro l
  induction l with
  | nil => intro seen; simp [firstDedupAux]
  | cons a l ih =>
    intro seen
    by_cases ha : a ∈ seen
    · simp only [firstDedupAux, ha, if_true]
      rw [ih seen]
      constructor
      · rintro ⟨h1, h2⟩; exact ⟨List.mem_cons_of_mem _ h1, h2⟩
      · rintro ⟨h1, h2⟩
        rcases List.mem_cons.mp h1 with rfl | h1
        · exact absurd ha h2
        · exact ⟨h1, h2⟩
    · simp only [firstDedupAux, ha, if_false, List.mem_cons]
      rw [ih (a :: seen)]
      constructor
      · rintro (rfl | ⟨h1, h2⟩)
        · exact ⟨Or.inl rfl, ha⟩
        · refine ⟨Or.inr h1, fun hx => h2 (List.mem_cons_of_mem _ hx)⟩
      · rintro ⟨rfl | h1, h2⟩
        · exact Or.inl rfl
        · by_cases hxa : x = a
          · exact Or.inl hxa
          · right
            refine ⟨h1, fun hx => ?_⟩
            rcases List.mem_cons.mp hx with h | hx
            · exact hxa h
            · exact h2 hx

theorem mem_firstDedup [DecidableEq α] (x : α) (l : List α) :
    x ∈ firstDedup l ↔ x ∈ l := by
  rw [firstDedup, mem_firstDedupAux]
  simp

def selectedKindRank : SelectedKind → Nat
  | SelectedKind.audio => 0
  | SelectedKind.subtitle => 1

/-- Order on optional language tags used to sort signature entries.  In
Python, comparing `None` against a string raises `TypeError`; that error
path is modelled by `selection_signature` below, which raises (as
`Except.error`) precisely when the sort would have to make such a
comparison, so the `none`-versus-`some` branches here are never observable
through `selection_signature`. -/
def optLangLtb : Option String → Option String → Bool
  | none, none => false
  | none, some _ => true
  | some _, none => false
  | some a, some b => decide (a < b)

/-- Lexicographic order on signature entries `((kind, language), count)`,
mirroring Python tuple comparison (`"audio" < "subtitle"` alphabetically). -/
def sigPairLeb (a b : (SelectedKind × Option String) × Nat) : Bool :=
  if a.1.1 ≠ b.1.1 then decide (selectedKindRank a.1.1 < selectedKindRank b.1.1)
  else if a.1.2 ≠ b.1.2 then optLangLtb a.1.2 b.1.2
  else decide (a.2 ≤ b.2)

/-- The key set of `type_lang_needed` in `_selection_signature`: the distinct
`(stream_type, language)` pairs referenced by the selection, in first-use
order as a Python dict accumulates them. -/
def referenced_keys (selected_streams : List SelectedStream) :
    List (SelectedKind × Option String) :=
  firstDedup (selected_streams.map (fun sel => (sel.stream_type, sel.language)))

/-- `sum(1 for s in (audios if key is audio else subtitles) if s.language == key[1])`. -/
def key_stream_count (info : FfmpegMediaInfo) (key : SelectedKind × Option String) : Nat :=
  let pool : List FfmpegStream :=
    match key.1 with
    | SelectedKind.audio => info.audios
    | SelectedKind.subtitle => info.subtitles
  (pool.filter (fun s => decide (s.language = key.2))).length

/-- `_selection_signature`: the sorted tuple of `(key, count)` pairs over
every key the selection references. -/
def selection_signature_value (info : FfmpegMediaInfo)
    (selected_streams : List SelectedStream) :
    List ((SelectedKind × Option String) × Nat) :=
  List.insertionSort (fun a b => sigPairLeb a b = true)
    ((referenced_keys selected_streams).map (fun k => (k, key_stream_count info k)))

/-- `true` when the referenced keys contain both an untagged (`None`) and a
tagged language for the same stream kind.  The relative order of two such
keys cannot be decided through any other element, so Python's `sorted` in
`_selection_signature` must compare them directly and raises `TypeError`;
the condition depends only on the selection, not on the probed file. -/
def mixed_language_keys (selected_streams : List SelectedStream) : Bool :=
  (referenced_keys selected_streams).any (fun k =>
    decide (k.2 = none) && (referenced_keys selected_streams).any (fun k2 =>
      decide (k2.1 = k.1) && decide (k2.2 ≠ none)))

/-- `_selection_signature`: the sorted tuple of `(key, count)` pairs over
every key the selection references.  The `sorted` call raises `TypeError`
exactly when the selection mixes an untagged and a tagged language of the
same kind (see `mixed_language_keys`); that reachable error path is
modelled as `Except.error`, and on every other input the result is the
total `selection_signature_value`. -/
def selection_signature (info : FfmpegMediaInfo)
    (selected_streams : List SelectedStream) :
    Except Unit (List ((SelectedKind × Option String) × Nat)) :=
  if mixed_language_keys selected_streams then Except.error ()
  else Except.ok (selection_signature_value info selected_streams)

/-- Equal signatures force equal per-key stream counts on every referenced
key. -/
theorem selection_signature_value_count_eq (f g : FfmpegMediaInfo)
    (sel : List SelectedStream)
    (h : selection_signature_value f sel = selection_signature_value g sel) :
    ∀ k, k ∈ referenced_keys sel → key_stream_count f k = key_stream_count g k := by
  intro k hk
  have h2 : List.insertionSort (fun a b => sigPairLeb a b = true)
        ((referenced_keys sel).map (fun k => (k, key_stream_count f k)))
      = List.insertionSort (fun a b => sigPairLeb a b = true)
        ((referenced_keys sel).map (fun k => (k, key_stream_count g k))) := h
  have pf := List.perm_insertionSort (fun a b => sigPairLeb a b = true)
    ((referenced_keys sel).map (fun k => (k, key_stream_count f k)))
  have pg := List.perm_insertionSort (fun a b => sigPairLeb a b = true)
    ((referenced_keys sel).map (fun k => (k, key_stream_count g k)))
  rw [← h2] at pg
  have hperm := pf.symm.trans pg
  have hmemf : (k, key_stream_count f k)
      ∈ (referenced_keys sel).map (fun k => (k, key_stream_count f k)) :=
    List.mem_map_of_mem _ hk
  have hmemg := hperm.mem_iff.mp hmemf
  obtain ⟨k2, hk2, heq⟩ := List.mem_map.mp hmemg
  simp only [Prod.mk.injEq] at heq
  obtain ⟨rfl, hcnt⟩ := heq
  exact hcnt.symm

/-- The dict-grouping `sig_groups` of `confirm_repack`: each distinct
signature, in first-appearance order, paired with the probed files carrying
it. -/
def sig_buckets (probed : List (String × FfmpegMediaInfo))
    (selected_streams : List SelectedStream) :
    List (List ((SelectedKind × Option String) × Nat) × List (String × FfmpegMediaInfo)) :=
  (firstDedup (probed.map (fun p => selection_signature_value p.2 selected_streams))).map
    (fun sig => (sig, probed.filter
      (fun p => decide (selection_signature_value p.2 selected_streams = sig))))

/-- The grouping value computed by `confirm_repack` when no signature
computation raises: the main group collects the files whose signature
equals the first file's, every other signature gets its own group with a
fresh interactive selection (the `reselect` collaborator) for its
representative file. -/
def confirm_repack_groups_value (probed : List (String × FfmpegMediaInfo))
    (selected_streams : List SelectedStream)
    (reselect : FfmpegMediaInfo → List SelectedStream) : List RepackGroup :=
  match probed with
  | [] => []
  | p0 :: ps =>
    let first_sig := selection_signature_value p0.2 selected_streams
    let main_group := (p0 :: ps).filter
      (fun p => decide (selection_signature_value p.2 selected_streams = first_sig))
    let other_buckets := (sig_buckets (p0 :: ps) selected_streams).filter
      (fun b => decide (b.1 ≠ first_sig))
    (if main_group.isEmpty then []
      else [{ files := main_group.map Prod.fst, selected_streams := selected_streams }])
    ++ other_buckets.map (fun b =>
        { files := b.2.map Prod.fst,
          selected_streams := match b.2 with
            | [] => []
            | repr0 :: _ => reselect repr0.2 })

/-- `confirm_repack`, restricted to its grouping behaviour: the first
signature computation is `first_sig = _selection_signature(first_info,
selected_streams)`, so a `TypeError` there propagates out of
`confirm_repack`; because the crash condition depends only on the
selection, the per-file signature computations in the loop raise under
exactly the same condition, and one check at the first signature decides
the whole call.  (An empty directory returns `[]` before any signature is
computed.) -/
def confirm_repack_groups (probed : List (String × FfmpegMediaInfo))
    (selected_streams : List SelectedStream)
    (reselect : FfmpegMediaInfo → List SelectedStream) :
    Except Unit (List RepackGroup) :=
  match probed with
  | [] => Except.ok []
  | p0 :: ps =>
    match selection_signature p0.2 selected_streams with
    | Except.error u => Except.error u
    | Except.ok _ =>
      Except.ok (confirm_repack_groups_value (p0 :: ps) selected_streams reselect)

/-- C8: two probed files land in the same `RepackGroup` exactly when their
selection signatures are equal as tuples; in particular a file whose stream
count differs, in either direction, for any referenced `(kind, language)`
key is placed in a different group — grouping is exact-match, not
subset/superset.  The `hmix` hypothesis restricts to selections on which
the signature computation returns at all: when a selection mixes an
untagged and a tagged language of the same kind, `confirm_repack` raises a
`TypeError` inside `sorted` before any grouping happens, and the embedded
`confirm_repack_groups` returns `Except.error` accordingly. -/
theorem confirm_repack_same_group_iff (probed : List (String × FfmpegMediaInfo))
    (selected_streams : List SelectedStream)
    (reselect : FfmpegMediaInfo → List SelectedStream)
    (hnd : (probed.map Prod.fst).Nodup)
    (f g : String × FfmpegMediaInfo) (hf : f ∈ probed) (hg : g ∈ probed)
    (hmix : mixed_language_keys selected_streams = false) :
    ∃ gs, confirm_repack_groups probed selected_streams reselect = Except.ok gs
      ∧ ((∃ G, G ∈ gs ∧ f.1 ∈ G.files ∧ g.1 ∈ G.files)
        ↔ selection_signature_value f.2 selected_streams
            = selection_signature_value g.2 selected_streams)
      ∧ (∀ k, k ∈ referenced_keys selected_streams →
          key_stream_count f.2 k ≠ key_stream_count g.2 k →
          ¬ ∃ G, G ∈ gs ∧ f.1 ∈ G.files ∧ g.1 ∈ G.files) := by
  have hinj := List.inj_on_of_nodup_map hnd
  have hok : confirm_repack_groups probed selected_streams reselect
      = Except.ok (confirm_repack_groups_value probed selected_streams reselect) := by
    cases probed with
    | nil => rfl
    | cons p0 ps => simp [confirm_repack_groups, selection_signature, hmix]
  have hiff : (∃ G, G ∈ confirm_repack_groups_value probed selected_streams reselect
        ∧ f.1 ∈ G.files ∧ g.1 ∈ G.files)
      ↔ selection_signature_value f.2 selected_streams
          = selection_signature_value g.2 selected_streams := by
    cases probed with
    | nil => cases hf
    | cons p0 ps =>
      constructor
      · rintro ⟨G, hG, hfG, hgG⟩
        simp only [confirm_repack_groups_value] at hG
        rcases List.mem_append.mp hG with hmain | hother
        · by_cases hemp : ((p0 :: ps).filter (fun p =>
              decide (selection_signature_value p.2 selected_streams
                = selection_signature_value p0.2 selected_streams))).isEmpty
          · rw [if_pos hemp] at hmain
            cases hmain
          · rw [if_neg hemp] at hmain
            have hGeq := List.mem_singleton.mp hmain
            subst hGeq
            obtain ⟨pf, hpf, hpf1⟩ := List.mem_map.mp hfG
            obtain ⟨pg, hpg, hpg1⟩ := List.mem_map.mp hgG
            have hpfin := List.mem_filter.mp hpf
            have hpgin := List.mem_filter.mp hpg
            have hpff : pf = f := hinj hpfin.1 hf hpf1
            have hpgg : pg = g := hinj hpgin.1 hg hpg1
            have h1 := of_decide_eq_true hpfin.2
            have h2 := of_decide_eq_true hpgin.2
            rw [hpff] at h1
            rw [hpgg] at h2
            rw [h1, h2]
        · obtain ⟨b, hb, hGb⟩ := List.mem_map.mp hother
          have hbin := List.mem_filter.mp hb
          obtain ⟨s, hs, hbs⟩ := List.mem_map.mp hbin.1
          subst hbs
          subst hGb
          obtain ⟨pf, hpf, hpf1⟩ := List.mem_map.mp hfG
          obtain ⟨pg, hpg, hpg1⟩ := List.mem_map.mp hgG
          have hpfin := List.mem_filter.mp hpf
          have hpgin := List.mem_filter.mp hpg
          have hpff : pf = f := hinj hpfin.1 hf hpf1
          have hpgg : pg = g := hinj hpgin.1 hg hpg1
          have h1 := of_decide_eq_true hpfin.2
          have h2 := of_decide_eq_true hpgin.2
          rw [hpff] at h1
          rw [hpgg] at h2
          rw [h1, h2]
      · intro hsigeq
        by_cases hfs : selection_signature_value f.2 selected_streams
            = selection_signature_value p0.2 selected_streams
        · have hfmem : f ∈ (p0 :: ps).filter (fun p =>
              decide (selection_signature_value p.2 selected_streams
                = selection_signature_value p0.2 selected_streams)) :=
            List.mem_filter.mpr ⟨hf, decide_eq_true hfs⟩
          have hgmem : g ∈ (p0 :: ps).filter (fun p =>
              decide (selection_signature_value p.2 selected_streams
                = selection_signature_value p0.2 selected_streams)) :=
            List.mem_filter.mpr ⟨hg, decide_eq_true (hsigeq.symm.trans hfs)⟩
          have hne : ¬ ((p0 :: ps).filter (fun p =>
              decide (selection_signature_value p.2 selected_streams
                = selection_signature_value p0.2 selected_streams))).isEmpty := by
            intro hemp
            rw [List.isEmpty_iff] at hemp
            rw [hemp] at hfmem
            cases hfmem
          refine ⟨RepackGroup.mk (((p0 :: ps).filter (fun p =>
                decide (selection_signature_value p.2 selected_streams
                  = selection_signature_value p0.2 selected_streams))).map Prod.fst)
              selected_streams, ?_, ?_, ?_⟩
          · simp only [confirm_repack_groups_value]
            apply List.mem_append_left
            rw [if_neg hne]
            exact List.mem_singleton.mpr rfl
          · exact List.mem_map_of_mem _ hfmem
          · exact List.mem_map_of_mem _ hgmem
        · have hbmem : (selection_signature_value f.2 selected_streams,
              (p0 :: ps).filter (fun p =>
                decide (selection_signature_value p.2 selected_streams
                  = selection_signature_value f.2 selected_streams)))
              ∈ sig_buckets (p0 :: ps) selected_streams := by
            have hsin : selection_signature_value f.2 selected_streams
                ∈ (p0 :: ps).map (fun p => selection_signature_value p.2 selected_streams) :=
              List.mem_map_of_mem _ hf
            exact List.mem_map_of_mem _ ((mem_firstDedup _ _).mpr hsin)
          have hbfil : (selection_signature_value f.2 selected_streams,
              (p0 :: ps).filter (fun p =>
                decide (selection_signature_value p.2 selected_streams
                  = selection_signature_value f.2 selected_streams)))
              ∈ (sig_buckets (p0 :: ps) selected_streams).filter
                (fun b => decide (b.1 ≠ selection_signature_value p0.2 selected_streams)) :=
            List.mem_filter.mpr ⟨hbmem, decide_eq_true hfs⟩
          refine ⟨RepackGroup.mk (((p0 :: ps).filter (fun p =>
                decide (selection_signature_value p.2 selected_streams
                  = selection_signature_value f.2 selected_streams))).map Prod.fst)
              (match (p0 :: ps).filter (fun p =>
                  decide (selection_signature_value p.2 selected_streams
                    = selection_signature_value f.2 selected_streams)) with
                | [] => []
                | repr0 :: _ => reselect repr0.2), ?_, ?_, ?_⟩
          · simp only [confirm_repack_groups_value]
            apply List.mem_append_right
            exact List.mem_map_of_mem _ hbfil
          · exact List.mem_map_of_mem _
              (List.mem_filter.mpr ⟨hf, decide_eq_true rfl⟩)
          · exact List.mem_map_of_mem _
              (List.mem_filter.mpr ⟨hg, decide_eq_true hsigeq.symm⟩)
  refine ⟨confirm_repack_groups_value probed selected_streams reselect, hok, hiff, ?_⟩
  intro k hk hcnt hex
  exact hcnt (selection_signature_value_count_eq f.2 g.2 selected_streams (hiff.mp hex) k hk)

def c8EngA1 : FfmpegStream :=
  { index := 1, type := StreamType.audio, codec := "aac", title := "eng 1",
    encoding_info := none, language := some "eng" }

def c8EngA2 : FfmpegStream :=
  { index := 2, type := StreamType.audio, codec := "ac3", title := "eng 2",
    encoding_info := none, language := some "eng" }

def c8InfoA : FfmpegMediaInfo :=
  { filename := "f1.mkv", title := "", bitrate := "", duration := none,
    streams := [c8EngA1, c8EngA2, c6SubSpa], comment := none }

def c8InfoB : FfmpegMediaInfo :=
  { filename := "f2.mkv", title := "", bitrate := "", duration := none,
    streams := [c8EngA1, c8EngA2, c6SubSpa], comment := none }

def c8InfoC : FfmpegMediaInfo :=
  { filename := "f3.mkv", title := "", bitrate := "", duration := none,
    streams := [c8EngA1, c6SubSpa], comment := none }

def c8Probed : List (String × FfmpegMediaInfo) :=
  [("f1.mkv", c8InfoA), ("f2.mkv", c8InfoB), ("f3.mkv", c8InfoC)]

def c8Selected : List SelectedStream :=
  [{ stream_type := SelectedKind.audio, language := some "eng", position := 0 },
   { stream_type := SelectedKind.subtitle, language := some "spa", position := 0 }]

def c8Reselect : FfmpegMediaInfo → List SelectedStream := fun _ => []

theorem confirm_repack_same_group_iff_witness :
    ∃ gs, confirm_repack_groups c8Probed c8Selected c8Reselect = Except.ok gs
      ∧ (∃ G, G ∈ gs ∧ "f1.mkv" ∈ G.files ∧ "f2.mkv" ∈ G.files)
      ∧ ¬ (∃ G, G ∈ gs ∧ "f1.mkv" ∈ G.files ∧ "f3.mkv" ∈ G.files) := by
  obtain ⟨gs, hgs, hiff12, _⟩ := confirm_repack_same_group_iff c8Probed c8Selected
    c8Reselect (by decide) ("f1.mkv", c8InfoA) ("f2.mkv", c8InfoB)
    (by decide) (by decide) (by decide)
  obtain ⟨gs2, hgs2, _, hcnt13⟩ := confirm_repack_same_group_iff c8Probed c8Selected
    c8Reselect (by decide) ("f1.mkv", c8InfoA) ("f3.mkv", c8InfoC)
    (by decide) (by decide) (by decide)
  rw [hgs] at hgs2
  injection hgs2 with hgseq
  subst hgseq
  exact ⟨gs, hgs, hiff12.mpr (by decide),
    hcnt13 (SelectedKind.audio, some "eng") (by decide) (by decide)⟩
